import Mathlib

/-!
Verification of the Pollinations-Chat streaming/session engine.

This file gives a shallow embedding, in Lean 4, of the core of the
Pollinations-Chat web client: the token/cost estimators
(src/lib/tokenizer.ts, src/lib/pollenMath.ts), the SSE stream parser
(streamGeneration in src/lib/pollinations.ts), the session store
(useLocalSession), the send/regenerate orchestrator (ChatPage), and the
JSON export/import module (src/lib/exportImport.ts).  JavaScript numbers
are embedded as rationals, Date.now() and uuid() results are passed in as
explicit parameters, and network results are passed in as explicit
outcome values, so every definition is a pure, executable function.
-/

namespace PollChat

/- ───────────────────────── tokenizer.ts ───────────────────────── -/

/-- Ceiling of the integer fraction a / b, computed with floor division;
for positive b this is the ceiling of the exact rational a / b. -/
def ceilDiv (a b : ℤ) : ℤ :=
  -(Int.fdiv (-a) b)

/-- Whitespace class of the JavaScript regular expressions used by
estimateTokens (the ASCII part of the \s class). -/
def jsWhitespace (c : Char) : Bool :=
  c = ' ' || c = '\t' || c = '\n' || c = '\r' || c = '\x0b' || c = '\x0c'

/-- Character-list splitting at every character satisfying p; the list of
pieces between separators, with empty pieces kept. -/
def charSplit (p : Char → Bool) : List Char → List (List Char)
  | [] => [[]]
  | c :: cs =>
    match charSplit p cs with
    | [] => [[]]
    | h :: t => if p c then [] :: h :: t else (c :: h) :: t

/-- Words of a text: split on whitespace and drop empty pieces, as in
text.split on whitespace filtered by Boolean in the source. -/
def jsWords (text : String) : List String :=
  ((charSplit jsWhitespace text.data).map String.mk).filter (fun w => w ≠ "")

/-- Count of characters that are neither ASCII alphanumeric nor whitespace
(the special-character regex of estimateTokens). -/
def jsSpecialCharsCount (text : String) : Nat :=
  (text.data.filter (fun c => ¬ (c.isAlphanum || jsWhitespace c))).length

/-- Word-count heuristic of estimateTokens: ceil of words times 1.3 plus
half a token per special character; the two decimal rates are put over
the common denominator 10, so the value is the exact ceiling of
1.3 times words plus 0.5 times specials. -/
def estimateWordHeuristic (text : String) : ℤ :=
  ceilDiv (13 * ((jsWords text).length : ℤ) + 5 * (jsSpecialCharsCount text : ℤ)) 10

/-- Character heuristic of estimateTokens: ceil of length over four. -/
def estimateCharHeuristic (text : String) : ℤ :=
  ceilDiv (text.length : ℤ) 4

/-- Token estimate for a string (estimateTokens in src/lib/tokenizer.ts):
zero for the empty string, otherwise the maximum of the word heuristic,
the character heuristic and one. -/
def estimateTokens (text : String) : Nat :=
  if text = "" then 0
  else (max (estimateWordHeuristic text) (max (estimateCharHeuristic text) 1)).toNat

/- ───────────────────────── pollenMath.ts ───────────────────────── -/

/-- Minimum pollen cost for a single prompt, 1 / 25000. -/
def MIN_POLLEN_PER_PROMPT : ℚ := 1 / 25000

/-- Float comparison epsilon of pollenMath.ts. -/
def EPSILON : ℚ := 1 / 10000000000

/-- Pricing record consumed by computePollenCost; absent fields are none. -/
structure PollenPricing where
  promptTextTokens : Option ℚ := none
  promptAudioTokens : Option ℚ := none
  completionTextTokens : Option ℚ := none
  completionImageTokens : Option ℚ := none
  completionVideoSeconds : Option ℚ := none
  completionVideoTokens : Option ℚ := none
  completionAudioSeconds : Option ℚ := none
  completionAudioTokens : Option ℚ := none
deriving DecidableEq

/-- JavaScript truthiness of an optional numeric field: present and
nonzero (undefined and 0 are falsy). -/
def jsTruthy (o : Option ℚ) : Bool :=
  match o with
  | none => false
  | some v => v ≠ 0

/-- Pollen cost of a generation request (computePollenCost in
src/lib/pollenMath.ts).  Null or undefined pricing is the none case. -/
def computePollenCost (pricing : Option PollenPricing)
    (inputTokens outputTokens : ℚ) : ℚ :=
  match pricing with
  | none => MIN_POLLEN_PER_PROMPT
  | some p =>
    let cost : ℚ := 0
    let cost := if jsTruthy p.promptTextTokens then
        cost + p.promptTextTokens.getD 0 * inputTokens else cost
    let cost := if jsTruthy p.promptAudioTokens then
        cost + p.promptAudioTokens.getD 0 * inputTokens else cost
    let cost :=
      if jsTruthy p.completionTextTokens then
        cost + p.completionTextTokens.getD 0 * outputTokens
      else if jsTruthy p.completionImageTokens then
        cost + p.completionImageTokens.getD 0
      else if jsTruthy p.completionVideoSeconds then
        cost + p.completionVideoSeconds.getD 0 * 5
      else if jsTruthy p.completionVideoTokens then
        cost + p.completionVideoTokens.getD 0 * outputTokens
      else if jsTruthy p.completionAudioTokens then
        cost + p.completionAudioTokens.getD 0 * outputTokens
      else if jsTruthy p.completionAudioSeconds then
        cost + p.completionAudioSeconds.getD 0 * 10
      else cost
    max cost MIN_POLLEN_PER_PROMPT

/-- Balance admission check (hasSufficientPollen in pollenMath.ts). -/
def hasSufficientPollen (balance requiredPollen : ℚ) : Bool :=
  balance + EPSILON ≥ requiredPollen

/- ──────────────── pollinations.ts: streamGeneration ──────────────── -/

/-- Usage accounting object of a streaming frame. -/
structure StreamUsage where
  prompt_tokens : Nat
  completion_tokens : Nat
  total_tokens : Nat
deriving DecidableEq

/-- The part of a parsed streaming frame that streamGeneration reads:
the optional usage object, the optional user_tier string, and the
optional text delta at choices[0].delta.content. -/
structure StreamDelta where
  usage : Option StreamUsage := none
  user_tier : Option String := none
  deltaContent : Option String := none
deriving DecidableEq

/-- Callback events emitted by streamGeneration: an onChunk call with a
text delta, or the final onDone call with the last usage and tier. -/
inductive StreamEv where
  | chunk (text : String)
  | done (usage : Option StreamUsage) (tier : Option String)
deriving DecidableEq

/-- Whether an event is the onDone call. -/
def StreamEv.isDone : StreamEv → Bool
  | .done _ _ => true
  | .chunk _ => false

/-- Update of the lastUsage variable on one parsed frame: overwritten
when the frame carries a usage object. -/
def frameUsage (u : Option StreamUsage) (j : StreamDelta) : Option StreamUsage :=
  if j.usage.isSome then j.usage else u

/-- Update of the lastTier variable on one parsed frame: overwritten when
the frame carries a truthy (nonempty) user_tier string. -/
def frameTier (t : Option String) (j : StreamDelta) : Option String :=
  match j.user_tier with
  | some s => if s ≠ "" then some s else t
  | none => t

/-- Trimming of ASCII whitespace from both ends of a string, as the
JavaScript trim call does on the protocol lines. -/
def jsTrim (s : String) : String :=
  String.mk (((s.data.dropWhile jsWhitespace).reverse.dropWhile jsWhitespace).reverse)

/-- Whether the character list l starts with the character list p. -/
def startsWithChars (p l : List Char) : Bool :=
  match p, l with
  | [], _ => true
  | _ :: _, [] => false
  | a :: ps, b :: ls => a = b && startsWithChars ps ls

/-- The startsWith test of the source on whole strings. -/
def jsStartsWith (s pre : String) : Bool :=
  startsWithChars pre.data s.data

/-- The slice from character index n of the source. -/
def jsDrop (s : String) (n : Nat) : String :=
  String.mk (s.data.drop n)

/-- Splitting a string at every newline character, with empty pieces
kept, as the split on the newline string does in the source. -/
def splitNl (s : String) : List String :=
  (charSplit (fun c => c = '\n') s.data).map String.mk

/-- Line-processing loop of streamGeneration over the complete list of
lines cut from the byte stream.  The parameter pf is the JSON parser for
frame payloads (JSON.parse composed with the StreamDelta field reads);
pf returning none is a malformed frame.  Returns the list of callback
events in order; processing stops at the data: [DONE] marker, and onDone
fires after the last line when no marker was seen. -/
def runLines (pf : String → Option StreamDelta) :
    List String → Option StreamUsage → Option String → List StreamEv
  | [], u, t => [.done u t]
  | line :: rest, u, t =>
    let trimmed := jsTrim line
    if trimmed = "" || trimmed = ":" then runLines pf rest u t
    else if trimmed = "data: [DONE]" then [.done u t]
    else if jsStartsWith trimmed "data: " then
      match pf (jsDrop trimmed 6) with
      | none => runLines pf rest u t
      | some j =>
        let u2 := frameUsage u j
        let t2 := frameTier t j
        match j.deltaContent with
        | some d => if d ≠ "" then .chunk d :: runLines pf rest u2 t2
                    else runLines pf rest u2 t2
        | none => runLines pf rest u2 t2
    else runLines pf rest u t

/-- The buffering step of the read loop: append the decoded value to the
buffer, split on newlines, keep the last piece as the new buffer and emit
the rest as complete lines. -/
def feedChunk (st : String × List String) (value : String) : String × List String :=
  let parts := splitNl (st.1 ++ value)
  (parts.getLastD "", st.2 ++ parts.dropLast)

/-- Complete lines cut from a sequence of decoded transport chunks; the
final unterminated buffer is never processed, exactly as in the source
loop. -/
def linesOf (chunks : List String) : List String :=
  (chunks.foldl feedChunk ("", [])).2

/-- The observable behaviour of streamGeneration on a readable body given
as a list of decoded chunks: the ordered list of onChunk/onDone events. -/
def streamRun (pf : String → Option StreamDelta) (chunks : List String) :
    List StreamEv :=
  runLines pf (linesOf chunks) none none

/-- Last usage object and tier label observed in frames, following the
same line discipline as the loop and stopping at the data: [DONE] marker. -/
def observeUT (pf : String → Option StreamDelta) :
    List String → Option StreamUsage → Option String →
      Option StreamUsage × Option String
  | [], u, t => (u, t)
  | line :: rest, u, t =>
    let trimmed := jsTrim line
    if trimmed = "" || trimmed = ":" then observeUT pf rest u t
    else if trimmed = "data: [DONE]" then (u, t)
    else if jsStartsWith trimmed "data: " then
      match pf (jsDrop trimmed 6) with
      | none => observeUT pf rest u t
      | some j => observeUT pf rest (frameUsage u j) (frameTier t j)
    else observeUT pf rest u t

/- ──────────────── useLocalSession: the session store ──────────────── -/

/-- Role of a chat message. -/
inductive Role where
  | user
  | assistant
  | system
deriving DecidableEq

/-- Generation modality of a message or model. -/
inductive GenerationMode where
  | text
  | image
  | video
  | audio
deriving DecidableEq

/-- Attachment on a chat message. -/
structure MessageAttachment where
  id : String
  kind : String
  name : String
  mimeType : String
  dataUrl : String
  sizeBytes : Nat
deriving DecidableEq

/-- A single chat message; optional fields are none when absent. -/
structure ChatMessage where
  id : String
  role : Role
  content : String
  mode : GenerationMode
  attachments : List MessageAttachment
  timestamp : Nat
  model : Option String := none
  tokensUsed : Option Nat := none
  pollenSpent : Option ℚ := none
  isPartial : Option Bool := none
  isError : Option Bool := none
deriving DecidableEq

/-- A chat session as stored locally. -/
structure ChatSession where
  id : String
  title : String
  messages : List ChatMessage
  model : String
  createdAt : Nat
  updatedAt : Nat
  totalPollenSpent : ℚ
deriving DecidableEq

/-- A partial message update, as passed to updateMessage; none fields are
keys absent from the update object and leave the message field alone. -/
structure MsgUpdate where
  content : Option String := none
  tokensUsed : Option Nat := none
  isPartial : Option Bool := none
  isError : Option Bool := none
  attachments : Option (List MessageAttachment) := none
deriving DecidableEq

/-- Object-spread merge of an update into a message. -/
def applyUpdate (m : ChatMessage) (u : MsgUpdate) : ChatMessage :=
  { m with
    content := u.content.getD m.content
    tokensUsed := match u.tokensUsed with | some n => some n | none => m.tokensUsed
    isPartial := match u.isPartial with | some b => some b | none => m.isPartial
    isError := match u.isError with | some b => some b | none => m.isError
    attachments := u.attachments.getD m.attachments }

/-- JavaScript Array.prototype.findIndex, with none for the -1 result. -/
def jsFindIndex (p : α → Bool) : List α → Option Nat
  | [] => none
  | x :: xs => if p x then some 0 else (jsFindIndex p xs).map (· + 1)

/-- createSession: a fresh session with an empty log, prepended to the
session list; the fresh id and both timestamps are passed in. -/
def createSession (ss : List ChatSession) (model : String)
    (title : Option String) (newId : String) (now : Nat) :
    ChatSession × List ChatSession :=
  let s : ChatSession :=
    { id := newId, title := title.getD "New Chat", messages := [],
      model := model, createdAt := now, updatedAt := now, totalPollenSpent := 0 }
  (s, s :: ss)

/-- Per-session body of addMessage: append to the tail of the log, with
the auto-title rule for the first user message. -/
def appendMessageBody (message : ChatMessage) (now : Nat)
    (s : ChatSession) : ChatSession :=
  { s with
    messages := s.messages ++ [message]
    updatedAt := now
    title :=
      if s.messages.length = 0 ∧ message.role = .user then
        String.mk (message.content.data.take 50)
          ++ (if message.content.length > 50 then "..." else "")
      else s.title }

/-- addMessage: append to the tail of the matching session's log. -/
def addMessage (ss : List ChatSession) (sessionId : String)
    (message : ChatMessage) (now : Nat) : List ChatSession :=
  ss.map fun s =>
    if s.id ≠ sessionId then s else appendMessageBody message now s

/-- Per-session body of updateMessage: merge the update into every
message matching the id. -/
def updateMessageBody (messageId : String) (update : MsgUpdate) (now : Nat)
    (s : ChatSession) : ChatSession :=
  { s with
    messages := s.messages.map fun m =>
      if m.id = messageId then applyUpdate m update else m
    updatedAt := now }

/-- updateMessage: merge the update into the matching message inside the
matching session. -/
def updateMessage (ss : List ChatSession) (sessionId messageId : String)
    (update : MsgUpdate) (now : Nat) : List ChatSession :=
  ss.map fun s =>
    if s.id ≠ sessionId then s else updateMessageBody messageId update now s

/-- Per-session body of deleteMessage: drop the matching message,
keeping order. -/
def deleteMessageBody (messageId : String) (now : Nat)
    (s : ChatSession) : ChatSession :=
  { s with
    messages := s.messages.filter (fun m => m.id ≠ messageId)
    updatedAt := now }

/-- deleteMessage: remove the matching message, keeping order. -/
def deleteMessage (ss : List ChatSession) (sessionId messageId : String)
    (now : Nat) : List ChatSession :=
  ss.map fun s =>
    if s.id ≠ sessionId then s else deleteMessageBody messageId now s

/-- Per-session body of deleteMessagesFrom: find the message index and
drop it and everything after it; unknown id leaves the session as is. -/
def truncateSessionFrom (messageId : String) (now : Nat)
    (s : ChatSession) : ChatSession :=
  match jsFindIndex (fun m => m.id = messageId) s.messages with
  | none => s
  | some idx => { s with messages := s.messages.take idx, updatedAt := now }

/-- deleteMessagesFrom: remove a specific message and all messages after
it in the matching session. -/
def deleteMessagesFrom (ss : List ChatSession) (sessionId messageId : String)
    (now : Nat) : List ChatSession :=
  ss.map fun s =>
    if s.id ≠ sessionId then s else truncateSessionFrom messageId now s

/- ──────────────── ChatPage: the send/regenerate orchestrator ──────────────── -/

/-- The slice of a model descriptor the orchestrator reads. -/
structure PModel where
  name : String
  modelType : GenerationMode
  pricing : PollenPricing
deriving DecidableEq

/-- The slice of the app settings the orchestrator reads. -/
structure OrchSettings where
  autoReadBalance : Bool
  systemPrompt : String
deriving DecidableEq

/-- Orchestrator state at the start of a send: selected model, settings,
last fetched balance, the in-flight flag, the active session pointer and
the session store. -/
structure OrchState where
  selectedModel : Option PModel
  settings : OrchSettings
  balance : Option ℚ
  isStreaming : Bool
  activeSessionId : Option String
  sessions : List ChatSession
deriving DecidableEq

/-- Fresh identifiers minted by uuid() during one send, passed in
explicitly. -/
structure FreshIds where
  newSessionId : String
  userMsgId : String
  assistantMsgId : String
  attachmentId : String
deriving DecidableEq

/-- Termination of one streaming text generation as observed by the
try/catch around streamGeneration: normal completion with the final
usage/tier, an AbortError, or any other error (whose formatted
user-facing text is passed in). -/
inductive TextTerm where
  | completed (usage : Option StreamUsage) (tier : Option String)
  | aborted
  | failed (friendly : String)
deriving DecidableEq

/-- Result of one media (image/video) generation: the blob size and
object URL on success, or the formatted user-facing error text. -/
inductive MediaOutcome where
  | ok (sizeBytes : Nat) (url : String)
  | err (friendly : String)
deriving DecidableEq

/-- Environment of one send: the deltas and termination the text stream
would deliver, and the media outcome the image/video call would deliver. -/
structure GenEnv where
  deltas : List String
  term : TextTerm
  media : MediaOutcome
deriving DecidableEq

/-- The onChunk loop of the text path: fold the deltas into accum and
write the running message update after each one.  Returns the final
accum together with the store. -/
def reconcileChunks (ss : List ChatSession) (sid aid : String) (now : Nat)
    (acc : String) : List String → String × List ChatSession
  | [] => (acc, ss)
  | d :: ds =>
    let acc2 := acc ++ d
    let ss2 := updateMessage ss sid aid
      { content := some acc2, tokensUsed := some (estimateTokens acc2),
        isPartial := some true } now
    reconcileChunks ss2 sid aid now acc2 ds

/-- Completion/cancellation/error epilogue of the text path, applied to
the store produced by the chunk loop. -/
def finishText (ss : List ChatSession) (sid aid : String) (now : Nat)
    (acc : String) : TextTerm → List ChatSession
  | .completed usage _tier =>
    updateMessage ss sid aid
      { content := some acc,
        tokensUsed := some ((usage.map StreamUsage.completion_tokens).getD
          (estimateTokens acc)),
        isPartial := some false } now
  | .aborted =>
    updateMessage ss sid aid
      { content := some (acc ++ "\n\n*[Generation cancelled]*"),
        isPartial := some false } now
  | .failed friendly =>
    if acc = "" then
      updateMessage ss sid aid
        { content := some friendly, isPartial := some false,
          isError := some true } now
    else ss

/-- Whole text streaming path from the placeholder onward: chunk loop
then epilogue. -/
def runTextStream (ss : List ChatSession) (sid aid : String) (now : Nat)
    (deltas : List String) (term : TextTerm) : List ChatSession :=
  let r := reconcileChunks ss sid aid now "" deltas
  finishText r.2 sid aid now r.1 term

/-- Effective generation modality: media-only models force their native
modality; a text model with a non-text mode falls back to text. -/
def effectiveModeOf (modelType : GenerationMode) (mode : GenerationMode) :
    GenerationMode :=
  if modelType = .image then .image
  else if modelType = .video then .video
  else if modelType = .text ∧ mode ≠ .text then .text
  else mode

/-- The handleSend orchestrator of ChatPage, run to quiescence: the
validation and pollen gates, session creation if none is active, the
user-message append, modality resolution, and the media or text
generation path driven by the given environment.  The final state has
isStreaming false again because the source resets it in the finally
blocks. -/
def handleSend (st : OrchState) (env : GenEnv) (fresh : FreshIds)
    (now : Nat) (text : String) (mode : GenerationMode)
    (attachments : List MessageAttachment) : OrchState :=
  match st.selectedModel with
  | none => st
  | some model =>
    if jsTrim text = "" ∧ attachments = [] then st
    else
      let gateRejects : Bool :=
        st.settings.autoReadBalance &&
          match st.balance with
          | some b =>
            ! hasSufficientPollen b
              (computePollenCost (some model.pricing)
                (estimateTokens text) 0)
          | none => false
      if gateRejects then st
      else
        let ensured :=
          match st.activeSessionId with
          | some sid => (sid, st.sessions)
          | none =>
            let c := createSession st.sessions model.name none
              fresh.newSessionId now
            (c.1.id, c.2)
        let sessionId := ensured.1
        let userMsg : ChatMessage :=
          { id := fresh.userMsgId, role := .user, content := text,
            timestamp := now, mode := mode, model := some model.name,
            attachments := attachments }
        let ss2 := addMessage ensured.2 sessionId userMsg now
        let effectiveMode := effectiveModeOf model.modelType mode
        if effectiveMode = .image then
          let ss3 := addMessage ss2 sessionId
            { id := fresh.assistantMsgId, role := .assistant, content := "",
              timestamp := now, mode := .image, model := some model.name,
              attachments := [], isPartial := some true } now
          let ss4 :=
            match env.media with
            | .ok size url =>
              updateMessage ss3 sessionId fresh.assistantMsgId
                { content := some "Image generated successfully.",
                  isPartial := some false,
                  attachments := some
                    [MessageAttachment.mk fresh.attachmentId "image"
                      "generated.png" "image/png" url size] } now
            | .err friendly =>
              updateMessage ss3 sessionId fresh.assistantMsgId
                { content := some friendly, isPartial := some false,
                  isError := some true } now
          { st with
            sessions := ss4
            activeSessionId := some sessionId
            isStreaming := false }
        else if effectiveMode = .video then
          let ss3 := addMessage ss2 sessionId
            { id := fresh.assistantMsgId, role := .assistant, content := "",
              timestamp := now, mode := .video, model := some model.name,
              attachments := [], isPartial := some true } now
          let ss4 :=
            match env.media with
            | .ok size url =>
              updateMessage ss3 sessionId fresh.assistantMsgId
                { content := some "Video generated successfully.",
                  isPartial := some false,
                  attachments := some
                    [MessageAttachment.mk fresh.attachmentId "video"
                      "generated.mp4" "video/mp4" url size] } now
            | .err friendly =>
              updateMessage ss3 sessionId fresh.assistantMsgId
                { content := some friendly, isPartial := some false,
                  isError := some true } now
          { st with
            sessions := ss4
            activeSessionId := some sessionId
            isStreaming := false }
        else
          let ss3 := addMessage ss2 sessionId
            { id := fresh.assistantMsgId, role := .assistant, content := "",
              timestamp := now, mode := .text, model := some model.name,
              attachments := [], isPartial := some true } now
          let ss4 := runTextStream ss3 sessionId fresh.assistantMsgId now
            env.deltas env.term
          { st with
            sessions := ss4
            activeSessionId := some sessionId
            isStreaming := false }

/-- The active session, as computed by the hook: the first session whose
id is the active pointer. -/
def activeSessionOf (st : OrchState) : Option ChatSession :=
  match st.activeSessionId with
  | none => none
  | some sid => st.sessions.find? (fun s => s.id = sid)

/-- Arguments of a re-issued send, as passed by the regenerate and edit
handlers to handleSend. -/
structure SendCall where
  content : String
  mode : GenerationMode
  attachments : List MessageAttachment
deriving DecidableEq

/-- The handleRegenerate handler: guards, locate the assistant message,
require a preceding user message, truncate from the assistant message
and re-issue the send.  The re-issued send is returned as an explicit
call record. -/
def handleRegenerate (st : OrchState) (now : Nat)
    (assistantMessageId : String) : OrchState × Option SendCall :=
  match st.activeSessionId, activeSessionOf st with
  | some sid, some sess =>
    if st.isStreaming then (st, none)
    else
      match jsFindIndex (fun m => m.id = assistantMessageId) sess.messages with
      | none => (st, none)
      | some i =>
        if i = 0 then (st, none)
        else
          match sess.messages[i - 1]? with
          | none => (st, none)
          | some prev =>
            if prev.role = .user then
              ({ st with sessions :=
                  deleteMessagesFrom st.sessions sid assistantMessageId now },
               some ⟨prev.content, prev.mode, prev.attachments⟩)
            else (st, none)
  | _, _ => (st, none)

/-- The handleEditAndRegenerate handler: guards, locate the user message,
truncate from it and re-issue the send with the new content and the
original mode and attachments. -/
def handleEditAndRegenerate (st : OrchState) (now : Nat)
    (userMessageId newContent : String) : OrchState × Option SendCall :=
  match st.activeSessionId, activeSessionOf st with
  | some sid, some sess =>
    if st.isStreaming then (st, none)
    else
      match jsFindIndex (fun m => m.id = userMessageId) sess.messages with
      | none => (st, none)
      | some i =>
        match sess.messages[i]? with
        | none => (st, none)
        | some orig =>
          ({ st with sessions :=
              deleteMessagesFrom st.sessions sid userMessageId now },
           some ⟨newContent, orig.mode, orig.attachments⟩)
  | _, _ => (st, none)

/- ──────────────── Composer: the send gate in the input field ──────────────── -/

/-- The handleSend of the Composer component: refuse empty input and
over-limit input, otherwise emit the send call with the trimmed text. -/
def composerHandleSend (text : String) (attachments : List MessageAttachment)
    (isOverLimit : Bool) (effectiveMode : GenerationMode) : Option SendCall :=
  let trimmed := jsTrim text
  if trimmed = "" ∧ attachments = [] then none
  else if isOverLimit then none
  else some ⟨trimmed, effectiveMode, attachments⟩

/-- The Enter-key handler of the Composer: the send only happens when the
composer is neither disabled nor streaming. -/
def composerEnterKey (disabled isStreaming : Bool) (text : String)
    (attachments : List MessageAttachment) (isOverLimit : Bool)
    (effectiveMode : GenerationMode) : Option SendCall :=
  if ¬ disabled ∧ ¬ isStreaming then
    composerHandleSend text attachments isOverLimit effectiveMode
  else none

/- ──────────────── exportImport.ts: JSON export / import ──────────────── -/

/-- JSON documents.  JSON.stringify and JSON.parse are mutually inverse
on this type, so export and import are modelled at the document level. -/
inductive Json where
  | null
  | bool (b : Bool)
  | num (q : ℚ)
  | str (s : String)
  | arr (elems : List Json)
  | obj (fields : List (String × Json))

/-- Values for which the JavaScript typeof is object and that are not
null: plain objects and arrays. -/
def jsonIsObjectNotNull : Json → Bool
  | .obj _ => true
  | .arr _ => true
  | _ => false

/-- Property access: some value on an object with the key, none (the
undefined read) otherwise. -/
def jsonGet : Json → String → Option Json
  | .obj kvs, k => (kvs.find? (fun kv => kv.1 = k)).map (fun kv => kv.2)
  | _, _ => none

/-- The JavaScript in-operator on a parsed document. -/
def jsonHasKey (j : Json) (k : String) : Bool :=
  (jsonGet j k).isSome

/-- JavaScript truthiness of a JSON value. -/
def jsonTruthy : Json → Bool
  | .null => false
  | .bool b => b
  | .num q => q ≠ 0
  | .str s => s ≠ ""
  | .arr _ => true
  | .obj _ => true

/-- Truthiness of a property read, with the undefined read falsy. -/
def jsonFieldTruthy (s : Json) (k : String) : Bool :=
  match jsonGet s k with
  | some v => jsonTruthy v
  | none => false

/-- Array.isArray on a property read. -/
def jsonFieldIsArray (s : Json) (k : String) : Bool :=
  match jsonGet s k with
  | some (.arr _) => true
  | _ => false

/-- The validateSessions loop of exportImport.ts: every session object
must have a truthy id, a truthy messages value and an array-typed
messages value, else the import throws. -/
def validateSessionsJ : List Json → Except String Unit
  | [] => .ok ()
  | s :: rest =>
    if ! jsonFieldTruthy s "id" || ! jsonFieldTruthy s "messages"
        || ! jsonFieldIsArray s "messages" then
      .error "Invalid session: missing id or messages"
    else validateSessionsJ rest

/-- The importJSON function on an already parsed document: accept the
version/sessions wrapper or a bare array, validate, and return the list
of session objects. -/
def importJSONv (j : Json) : Except String (List Json) :=
  if jsonIsObjectNotNull j && jsonHasKey j "version" && jsonHasKey j "sessions" then
    match jsonGet j "sessions" with
    | some (.arr ss) =>
      match validateSessionsJ ss with
      | .ok _ => .ok ss
      | .error e => .error e
    | _ => .error "Invalid export: sessions must be an array"
  else
    match j with
    | .arr ss =>
      match validateSessionsJ ss with
      | .ok _ => .ok ss
      | .error e => .error e
    | _ => .error "Unrecognized import format: expected a wrapper or an array of sessions"

/-- Serialization of a role. -/
def roleStr : Role → String
  | .user => "user"
  | .assistant => "assistant"
  | .system => "system"

/-- Serialization of a generation mode. -/
def modeStr : GenerationMode → String
  | .text => "text"
  | .image => "image"
  | .video => "video"
  | .audio => "audio"

/-- JSON image of an attachment under JSON.stringify. -/
def attachmentToJson (a : MessageAttachment) : Json :=
  .obj [("id", .str a.id), ("type", .str a.kind), ("name", .str a.name),
    ("mimeType", .str a.mimeType), ("dataUrl", .str a.dataUrl),
    ("sizeBytes", .num a.sizeBytes)]

/-- JSON image of a chat message under JSON.stringify; absent optional
fields produce no key. -/
def messageToJson (m : ChatMessage) : Json :=
  .obj ([("id", .str m.id), ("role", .str (roleStr m.role)),
    ("content", .str m.content), ("mode", .str (modeStr m.mode)),
    ("attachments", .arr (m.attachments.map attachmentToJson)),
    ("timestamp", .num m.timestamp)]
    ++ (match m.model with | some v => [("model", Json.str v)] | none => [])
    ++ (match m.tokensUsed with | some v => [("tokensUsed", Json.num v)] | none => [])
    ++ (match m.pollenSpent with | some v => [("pollenSpent", Json.num v)] | none => [])
    ++ (match m.isPartial with | some v => [("isPartial", Json.bool v)] | none => [])
    ++ (match m.isError with | some v => [("isError", Json.bool v)] | none => []))

/-- JSON image of a chat session under JSON.stringify. -/
def sessionToJson (s : ChatSession) : Json :=
  .obj [("id", .str s.id), ("title", .str s.title),
    ("messages", .arr (s.messages.map messageToJson)),
    ("model", .str s.model), ("createdAt", .num s.createdAt),
    ("updatedAt", .num s.updatedAt),
    ("totalPollenSpent", .num s.totalPollenSpent)]

/-- The exportJSON function at the document level: the version 1.0
wrapper around the serialized sessions; the export timestamp string is
passed in. -/
def exportJSONv (sessions : List ChatSession) (exportedAt : String) : Json :=
  .obj [("version", .str "1.0"), ("exportedAt", .str exportedAt),
    ("sessions", .arr (sessions.map sessionToJson))]

/-- Message contents, in order, of an encoded session object. -/
def jsonMessagesContents (j : Json) : Option (List (Option Json)) :=
  match jsonGet j "messages" with
  | some (.arr ms) => some (ms.map (fun mj => jsonGet mj "content"))
  | _ => none

/-- Concrete session fixture used by concrete-input theorems. -/
def sampleSession (sid : String) (msgs : List ChatMessage) : ChatSession :=
  { id := sid, title := "T", messages := msgs, model := "m",
    createdAt := 0, updatedAt := 0, totalPollenSpent := 0 }

/-- Concrete message fixture used by concrete-input theorems. -/
def sampleMsg (mid : String) (role : Role) (content : String) : ChatMessage :=
  { id := mid, role := role, content := content, mode := .text,
    attachments := [], timestamp := 0 }

/-- Input cost as the specification words it: the text rate times the
input tokens plus the audio rate times the input tokens, each term when
the rate is applicable. -/
def specInputCost (p : PollenPricing) (inputTokens : ℚ) : ℚ :=
  (if jsTruthy p.promptTextTokens then p.promptTextTokens.getD 0 * inputTokens else 0)
    + (if jsTruthy p.promptAudioTokens then p.promptAudioTokens.getD 0 * inputTokens else 0)

/-- Output cost as the specification words it: exactly the first
applicable field in the order text per token, image per unit, video per
second times five, video per token, audio per token, audio per second
times ten. -/
def specOutputCost (p : PollenPricing) (outputTokens : ℚ) : ℚ :=
  if jsTruthy p.completionTextTokens then p.completionTextTokens.getD 0 * outputTokens
  else if jsTruthy p.completionImageTokens then p.completionImageTokens.getD 0
  else if jsTruthy p.completionVideoSeconds then p.completionVideoSeconds.getD 0 * 5
  else if jsTruthy p.completionVideoTokens then p.completionVideoTokens.getD 0 * outputTokens
  else if jsTruthy p.completionAudioTokens then p.completionAudioTokens.getD 0 * outputTokens
  else if jsTruthy p.completionAudioSeconds then p.completionAudioSeconds.getD 0 * 10
  else 0

/- ───────────────────────── theorems ───────────────────────── -/

/-- The integer ceiling division agrees with the rational ceiling for a
positive denominator. -/
theorem ceilDiv_cast (a d : ℤ) (hd : 0 < d) :
    ceilDiv a d = Int.ceil ((a : ℚ) / (d : ℚ)) := by
  obtain ⟨n, rfl⟩ : ∃ n : ℕ, d = (n : ℤ) :=
    ⟨d.toNat, (Int.toNat_of_nonneg hd.le).symm⟩
  rw [ceilDiv, Int.fdiv_eq_ediv _ (by positivity)]
  have h2 : Int.floor (((-a : ℤ) : ℚ) / (n : ℚ)) = (-a) / ((n : ℤ)) :=
    Rat.floor_intCast_div_natCast (-a) n
  rw [← h2]
  have h3 : ((-a : ℤ) : ℚ) / (n : ℚ) = -((a : ℚ) / (((n : ℤ)) : ℚ)) := by
    push_cast
    ring
  rw [h3, Int.floor_neg, neg_neg]

/-- The word heuristic is the exact ceiling of 1.3 per word plus 0.5 per
special character. -/
theorem estimateWordHeuristic_eq (text : String) :
    estimateWordHeuristic text
      = Int.ceil (((jsWords text).length : ℚ) * (13 / 10)
          + (jsSpecialCharsCount text : ℚ) * (1 / 2)) := by
  rw [estimateWordHeuristic, ceilDiv_cast _ 10 (by norm_num)]
  congr 1
  push_cast
  ring

/-- The character heuristic is the exact ceiling of length over four. -/
theorem estimateCharHeuristic_eq (text : String) :
    estimateCharHeuristic text = Int.ceil ((text.length : ℚ) / 4) := by
  rw [estimateCharHeuristic, ceilDiv_cast _ 4 (by norm_num)]
  norm_num

/-- C8: estimateTokens returns 0 on the empty string; on any non-empty
string it is at least 1 and at least the ceiling of the length over
four, and it equals the greater of the word-count heuristic and the
character heuristic, floored at 1.  The function is a plain Lean
function, hence deterministic and pure. -/
theorem estimateTokens_spec :
    estimateTokens "" = 0
    ∧ (∀ s : String, s ≠ "" → 1 ≤ estimateTokens s)
    ∧ (∀ s : String, s ≠ "" →
        Int.ceil ((s.length : ℚ) / 4) ≤ (estimateTokens s : ℤ))
    ∧ (∀ s : String, s ≠ "" →
        (estimateTokens s : ℤ)
          = max (Int.ceil (((jsWords s).length : ℚ) * (13 / 10)
              + (jsSpecialCharsCount s : ℚ) * (1 / 2)))
              (max (Int.ceil ((s.length : ℚ) / 4)) 1)) := by
  have hval : ∀ s : String, s ≠ "" →
      estimateTokens s
        = (max (estimateWordHeuristic s) (max (estimateCharHeuristic s) 1)).toNat := by
    intro s hs
    simp [estimateTokens, hs]
  have hone : ∀ s : String,
      (1 : ℤ) ≤ max (estimateWordHeuristic s) (max (estimateCharHeuristic s) 1) :=
    fun s => le_trans (le_max_right _ 1) (le_max_right _ _)
  have hcast : ∀ s : String, s ≠ "" →
      (estimateTokens s : ℤ)
        = max (estimateWordHeuristic s) (max (estimateCharHeuristic s) 1) := by
    intro s hs
    rw [hval s hs]
    exact Int.toNat_of_nonneg (le_trans (by norm_num) (hone s))
  refine ⟨by decide, ?_, ?_, ?_⟩
  · intro s hs
    rw [hval s hs]
    have h := Int.toNat_le_toNat (hone s)
    simp only [Int.toNat_one] at h
    exact h
  · intro s hs
    rw [hcast s hs, ← estimateCharHeuristic_eq]
    exact le_trans (le_max_left _ 1) (le_max_right _ _)
  · intro s hs
    rw [hcast s hs, ← estimateCharHeuristic_eq, ← estimateWordHeuristic_eq]

/-- Witness for C8 at a concrete non-empty string. -/
theorem estimateTokens_spec_witness :
    1 ≤ estimateTokens "ab!"
    ∧ Int.ceil (("ab!".length : ℚ) / 4) ≤ (estimateTokens "ab!" : ℤ)
    ∧ (estimateTokens "ab!" : ℤ)
        = max (Int.ceil (((jsWords "ab!").length : ℚ) * (13 / 10)
            + (jsSpecialCharsCount "ab!" : ℚ) * (1 / 2)))
            (max (Int.ceil (("ab!".length : ℚ) / 4)) 1) :=
  ⟨estimateTokens_spec.2.1 "ab!" (by decide),
   estimateTokens_spec.2.2.1 "ab!" (by decide),
   estimateTokens_spec.2.2.2 "ab!" (by decide)⟩

/-- C7: computePollenCost is exactly 1/25000 without pricing metadata;
with pricing it is the input cost plus the first applicable output rate,
floored at MIN_POLLEN_PER_PROMPT; and it is never below
MIN_POLLEN_PER_PROMPT on any input. -/
theorem computePollenCost_spec :
    (∀ i o : ℚ, computePollenCost none i o = 1 / 25000)
    ∧ (∀ (p : PollenPricing) (i o : ℚ),
        computePollenCost (some p) i o
          = max (specInputCost p i + specOutputCost p o) MIN_POLLEN_PER_PROMPT)
    ∧ (∀ (pr : Option PollenPricing) (i o : ℚ),
        MIN_POLLEN_PER_PROMPT ≤ computePollenCost pr i o) := by
  have h2 : ∀ (p : PollenPricing) (i o : ℚ),
      computePollenCost (some p) i o
        = max (specInputCost p i + specOutputCost p o) MIN_POLLEN_PER_PROMPT := by
    intro p i o
    simp only [computePollenCost, specInputCost, specOutputCost]
    split_ifs <;> ring_nf
  refine ⟨fun i o => rfl, h2, ?_⟩
  intro pr i o
  match pr with
  | none => exact le_refl _
  | some p => rw [h2 p i o]; exact le_max_right _ _

/-- Characterization of jsFindIndex: it returns the first index whose
element satisfies the predicate. -/
theorem jsFindIndex_first (p : α → Bool) :
    ∀ (l : List α) (i : Nat) (hi : i < l.length),
      p (l.get ⟨i, hi⟩) = true →
      (∀ (j : Nat) (hj : j < i), p (l.get ⟨j, lt_trans hj hi⟩) = false) →
      jsFindIndex p l = some i := by
  intro l
  induction l with
  | nil => intro i hi _ _; simp at hi
  | cons x xs ih =>
    intro i hi hp hmin
    match i with
    | 0 =>
      simp only [List.get] at hp
      simp [jsFindIndex, hp]
    | Nat.succ n =>
      have hx : p x = false := by
        have h0 := hmin 0 (Nat.succ_pos n)
        simpa using h0
      have hn : n < xs.length := by
        simpa using Nat.lt_of_succ_lt_succ hi
      have hp2 : p (xs.get ⟨n, hn⟩) = true := by simpa using hp
      have hmin2 : ∀ (j : Nat) (hj : j < n),
          p (xs.get ⟨j, lt_trans hj hn⟩) = false := by
        intro j hj
        have h1 := hmin (j + 1) (Nat.succ_lt_succ hj)
        simpa using h1
      have hrec := ih n hn hp2 hmin2
      simp [jsFindIndex, hx, hrec]

/-- jsFindIndex returns none when no element satisfies the predicate. -/
theorem jsFindIndex_none (p : α → Bool) :
    ∀ l : List α, (∀ a ∈ l, p a = false) → jsFindIndex p l = none := by
  intro l
  induction l with
  | nil => intro _; rfl
  | cons x xs ih =>
    intro h
    simp [jsFindIndex, h x (by simp), ih (fun a ha => h a (by simp [ha]))]

/-- C6: deleteMessagesFrom removes the matching message and everything
after it, leaving the prefix unchanged and in order; an unknown id is a
no-op; and at the store level the operation is exactly the per-session
truncation applied to the matching sessions. -/
theorem deleteMessagesFrom_spec :
    (∀ (s : ChatSession) (mid : String) (now : Nat) (i : Nat)
        (hi : i < s.messages.length),
        (s.messages.map ChatMessage.id).Nodup →
        (s.messages.get ⟨i, hi⟩).id = mid →
        (truncateSessionFrom mid now s).messages = s.messages.take i)
    ∧ (∀ (s : ChatSession) (mid : String) (now : Nat),
        (∀ m ∈ s.messages, m.id ≠ mid) → truncateSessionFrom mid now s = s)
    ∧ (∀ (ss : List ChatSession) (sid mid : String) (now : Nat),
        deleteMessagesFrom ss sid mid now
          = ss.map (fun s => if s.id ≠ sid then s else truncateSessionFrom mid now s)) := by
  refine ⟨?_, ?_, fun ss sid mid now => rfl⟩
  · intro s mid now i hi hnd hmid
    simp only [List.get_eq_getElem] at hmid
    have hfind : jsFindIndex (fun m => m.id = mid) s.messages = some i := by
      apply jsFindIndex_first _ _ i hi
      · simp only [List.get_eq_getElem, decide_eq_true_eq]
        exact hmid
      · intro j hj
        simp only [List.get_eq_getElem, decide_eq_false_iff_not]
        intro heq
        have hlen : j < (s.messages.map ChatMessage.id).length := by
          simpa using lt_trans hj hi
        have hleni : i < (s.messages.map ChatMessage.id).length := by
          simpa using hi
        have heq2 : (s.messages.map ChatMessage.id).get ⟨j, hlen⟩
            = (s.messages.map ChatMessage.id).get ⟨i, hleni⟩ := by
          simp only [List.get_eq_getElem, List.getElem_map]
          rw [heq, hmid]
        have hj_eq := (List.Nodup.get_inj_iff hnd).mp heq2
        have hji : j = i := by simpa using hj_eq
        omega
    simp [truncateSessionFrom, hfind]
  · intro s mid now h
    have hfind : jsFindIndex (fun m => m.id = mid) s.messages = none := by
      apply jsFindIndex_none
      intro a ha
      simp [h a ha]
    simp [truncateSessionFrom, hfind]

/-- Witness for C6 at the concrete log A, B, C, D of the specification:
truncating from C leaves A, B, and an unknown id is a no-op. -/
theorem deleteMessagesFrom_spec_witness :
    (truncateSessionFrom "C" 9 (sampleSession "s1"
        [sampleMsg "A" .user "a", sampleMsg "B" .assistant "b",
         sampleMsg "C" .user "c", sampleMsg "D" .assistant "d"])).messages
      = [sampleMsg "A" .user "a", sampleMsg "B" .assistant "b"]
    ∧ truncateSessionFrom "Z" 9 (sampleSession "s1"
        [sampleMsg "A" .user "a", sampleMsg "B" .assistant "b",
         sampleMsg "C" .user "c", sampleMsg "D" .assistant "d"])
      = sampleSession "s1"
        [sampleMsg "A" .user "a", sampleMsg "B" .assistant "b",
         sampleMsg "C" .user "c", sampleMsg "D" .assistant "d"] := by
  constructor
  · have h := deleteMessagesFrom_spec.1 (sampleSession "s1"
      [sampleMsg "A" .user "a", sampleMsg "B" .assistant "b",
       sampleMsg "C" .user "c", sampleMsg "D" .assistant "d"]) "C" 9 2
      (by decide) (by decide) (by decide)
    simpa using h
  · exact deleteMessagesFrom_spec.2.1 (sampleSession "s1"
      [sampleMsg "A" .user "a", sampleMsg "B" .assistant "b",
       sampleMsg "C" .user "c", sampleMsg "D" .assistant "d"]) "Z" 9
      (by decide)

/-- Frame property of one store operation at one session id: the number
of sessions is unchanged, the session ids are unchanged in order, and
every session whose id differs from the target id is completely
unchanged at its position. -/
def sessionFrameOK (op : List ChatSession → List ChatSession)
    (ss : List ChatSession) (sid : String) : Prop :=
  (op ss).length = ss.length
  ∧ (op ss).map ChatSession.id = ss.map ChatSession.id
  ∧ ∀ (i : Nat) (s0 : ChatSession), ss[i]? = some s0 → s0.id ≠ sid →
      (op ss)[i]? = some s0

/-- Any map that rewrites only the sessions matching the target id, with
an id-preserving body, satisfies the frame property. -/
theorem frame_guarded_map (g : ChatSession → ChatSession)
    (hg : ∀ s, (g s).id = s.id) (ss : List ChatSession) (sid : String) :
    sessionFrameOK (fun l => l.map (fun s => if s.id ≠ sid then s else g s))
      ss sid := by
  refine ⟨by simp, ?_, ?_⟩
  · rw [List.map_map]
    apply List.map_congr_left
    intro s _
    by_cases h : s.id = sid
    · simp [h, hg]
    · simp [h]
  · intro i s0 h hid
    rw [List.getElem?_map, h]
    simp [hid]

/-- C10: addMessage, updateMessage, deleteMessage and deleteMessagesFrom
leave every session with a different id completely unchanged and neither
add nor remove sessions. -/
theorem session_store_frame :
    ∀ (ss : List ChatSession) (sid : String) (now : Nat)
      (msg : ChatMessage) (mid : String) (u : MsgUpdate),
      sessionFrameOK (fun l => addMessage l sid msg now) ss sid
      ∧ sessionFrameOK (fun l => updateMessage l sid mid u now) ss sid
      ∧ sessionFrameOK (fun l => deleteMessage l sid mid now) ss sid
      ∧ sessionFrameOK (fun l => deleteMessagesFrom l sid mid now) ss sid := by
  intro ss sid now msg mid u
  refine ⟨?_, ?_, ?_, ?_⟩
  · exact frame_guarded_map (appendMessageBody msg now) (fun s => rfl) ss sid
  · exact frame_guarded_map (updateMessageBody mid u now) (fun s => rfl) ss sid
  · exact frame_guarded_map (deleteMessageBody mid now) (fun s => rfl) ss sid
  · exact frame_guarded_map (truncateSessionFrom mid now)
      (fun s => by
        unfold truncateSessionFrom
        split <;> rfl) ss sid

/-- Witness for C10: at a concrete two-session store, each of the four
operations keyed to the first session leaves the second session intact. -/
theorem session_store_frame_witness :
    (addMessage [sampleSession "s1" [], sampleSession "s2" []] "s1"
        (sampleMsg "u" .user "hi") 3)[1]? = some (sampleSession "s2" [])
    ∧ (updateMessage [sampleSession "s1" [], sampleSession "s2" []] "s1" "u"
        { content := some "x" } 3)[1]? = some (sampleSession "s2" [])
    ∧ (deleteMessage [sampleSession "s1" [], sampleSession "s2" []] "s1" "u"
        3)[1]? = some (sampleSession "s2" [])
    ∧ (deleteMessagesFrom [sampleSession "s1" [], sampleSession "s2" []] "s1"
        "u" 3)[1]? = some (sampleSession "s2" []) := by
  have h := session_store_frame [sampleSession "s1" [], sampleSession "s2" []]
    "s1" 3 (sampleMsg "u" .user "hi") "u" { content := some "x" }
  exact ⟨h.1.2.2 1 (sampleSession "s2" []) (by decide) (by decide),
    h.2.1.2.2 1 (sampleSession "s2" []) (by decide) (by decide),
    h.2.2.1.2.2 1 (sampleSession "s2" []) (by decide) (by decide),
    h.2.2.2.2.2 1 (sampleSession "s2" []) (by decide) (by decide)⟩

/-- Concatenation of stream deltas in arrival order with no separator. -/
def concatDeltas : List String → String
  | [] => ""
  | d :: ds => d ++ concatDeltas ds

/-- Elimination for updateMessage: a message matching the target ids in
the updated store is the merge of the update into a matching message of
the original store. -/
theorem updateMessage_elim {ss : List ChatSession} {sid mid : String}
    {u : MsgUpdate} {now : Nat} {s : ChatSession} {m : ChatMessage}
    (hs : s ∈ updateMessage ss sid mid u now) (hsid : s.id = sid)
    (hm : m ∈ s.messages) (hmid : m.id = mid) :
    ∃ s0, s0 ∈ ss ∧ s0.id = sid
      ∧ ∃ m0, m0 ∈ s0.messages ∧ m0.id = mid ∧ m = applyUpdate m0 u := by
  rcases List.mem_map.mp hs with ⟨s0, hs0, hdef⟩
  by_cases h : s0.id = sid
  · rw [if_neg (show ¬(s0.id ≠ sid) by simp [h])] at hdef
    subst hdef
    have hm2 : m ∈ s0.messages.map
        (fun m => if m.id = mid then applyUpdate m u else m) := hm
    rcases List.mem_map.mp hm2 with ⟨m0, hm0, hmdef⟩
    by_cases h2 : m0.id = mid
    · rw [if_pos h2] at hmdef
      exact ⟨s0, hs0, h, m0, hm0, h2, hmdef.symm⟩
    · rw [if_neg h2] at hmdef
      subst hmdef
      exact absurd hmid h2
  · rw [if_pos (show s0.id ≠ sid from h)] at hdef
    subst hdef
    exact absurd hsid h

/-- The accumulated string after the chunk loop is the initial value
followed by all deltas. -/
theorem reconcileChunks_fst (sid aid : String) (now : Nat) :
    ∀ (deltas : List String) (ss : List ChatSession) (acc : String),
      (reconcileChunks ss sid aid now acc deltas).1 = acc ++ concatDeltas deltas := by
  intro deltas
  induction deltas with
  | nil =>
    intro ss acc
    simp [reconcileChunks, concatDeltas, String.append_empty]
  | cons d ds ih =>
    intro ss acc
    simp only [reconcileChunks]
    rw [ih]
    simp only [concatDeltas]
    rw [String.append_assoc]

/-- After a non-empty chunk loop, every message matching the target ids
holds the full accumulated content, its heuristic token count, and the
partial flag. -/
theorem reconcileChunks_writes (sid aid : String) (now : Nat) :
    ∀ (deltas : List String) (ss : List ChatSession) (acc : String),
      deltas ≠ [] →
      ∀ s ∈ (reconcileChunks ss sid aid now acc deltas).2, s.id = sid →
      ∀ m ∈ s.messages, m.id = aid →
        m.content = acc ++ concatDeltas deltas
        ∧ m.tokensUsed = some (estimateTokens (acc ++ concatDeltas deltas))
        ∧ m.isPartial = some true := by
  intro deltas
  induction deltas with
  | nil => intro ss acc h; exact absurd rfl h
  | cons d ds ih =>
    intro ss acc _ s hs hsid m hm hmid
    by_cases hds : ds = []
    · subst hds
      simp only [reconcileChunks] at hs
      rcases updateMessage_elim hs hsid hm hmid with
        ⟨s0, _, _, m0, _, _, hdef⟩
      subst hdef
      simp [applyUpdate, concatDeltas, String.append_empty]
    · simp only [reconcileChunks] at hs
      have h := ih _ (acc ++ d) hds s hs hsid m hm hmid
      simp only [concatDeltas]
      rw [← String.append_assoc]
      exact h

/-- The chunk loop never touches the error flag of a matching message:
the chunk updates carry no isError field. -/
theorem reconcileChunks_isError (sid aid : String) (now : Nat) :
    ∀ (deltas : List String) (ss : List ChatSession) (acc : String),
      (∀ s ∈ ss, s.id = sid → ∀ m ∈ s.messages, m.id = aid → m.isError = none) →
      ∀ s ∈ (reconcileChunks ss sid aid now acc deltas).2, s.id = sid →
      ∀ m ∈ s.messages, m.id = aid → m.isError = none := by
  intro deltas
  induction deltas with
  | nil => intro ss acc h; exact h
  | cons d ds ih =>
    intro ss acc h
    simp only [reconcileChunks]
    apply ih
    intro s hs hsid m hm hmid
    rcases updateMessage_elim hs hsid hm hmid with
      ⟨s0, hs0, hs0id, m0, hm0, hm0id, hdef⟩
    subst hdef
    simpa [applyUpdate] using h s0 hs0 hs0id m0 hm0 hm0id

/-- C2: after all deltas and completion, every message matching the ids
is finalized with the concatenation of the deltas, the partial flag
cleared, and the server token count when reported; during streaming,
after any non-empty prefix of the deltas, it holds that prefix with its
heuristic token count and the partial flag set. -/
theorem streaming_reconciliation_spec :
    (∀ (ss : List ChatSession) (sid aid : String) (now : Nat)
        (deltas : List String) (usage : Option StreamUsage) (tier : Option String),
        ∀ s ∈ runTextStream ss sid aid now deltas (.completed usage tier),
          s.id = sid → ∀ m ∈ s.messages, m.id = aid →
            m.content = concatDeltas deltas
            ∧ m.isPartial = some false
            ∧ m.tokensUsed = some ((usage.map StreamUsage.completion_tokens).getD
                (estimateTokens (concatDeltas deltas))))
    ∧ (∀ (ss : List ChatSession) (sid aid : String) (now : Nat)
        (deltas : List String) (k : Nat), 0 < k → k ≤ deltas.length →
        ∀ s ∈ (reconcileChunks ss sid aid now "" (deltas.take k)).2,
          s.id = sid → ∀ m ∈ s.messages, m.id = aid →
            m.content = concatDeltas (deltas.take k)
            ∧ m.tokensUsed = some (estimateTokens (concatDeltas (deltas.take k)))
            ∧ m.isPartial = some true) := by
  constructor
  · intro ss sid aid now deltas usage tier s hs hsid m hm hmid
    have hfst := reconcileChunks_fst sid aid now deltas ss ""
    rw [String.empty_append] at hfst
    simp only [runTextStream, finishText, hfst] at hs
    rcases updateMessage_elim hs hsid hm hmid with
      ⟨s0, _, _, m0, _, _, hdef⟩
    subst hdef
    simp [applyUpdate]
  · intro ss sid aid now deltas k hk hkle s hs hsid m hm hmid
    have hne : deltas.take k ≠ [] := by
      intro h
      have h0 := congrArg List.length h
      rw [List.length_take] at h0
      simp only [List.length_nil] at h0
      omega
    have h := reconcileChunks_writes sid aid now (deltas.take k) ss "" hne
      s hs hsid m hm hmid
    rwa [String.empty_append] at h

/-- The finalized message of the concrete Hel, lo streaming example. -/
def witnessMsg : ChatMessage :=
  { id := "a1", role := .assistant, content := "Hello", mode := .text,
    attachments := [], timestamp := 0, tokensUsed := some 2,
    isPartial := some false }

/-- The finalized session of the concrete Hel, lo streaming example. -/
def witnessSession : ChatSession :=
  { id := "s1", title := "T", messages := [witnessMsg], model := "m",
    createdAt := 0, updatedAt := 5, totalPollenSpent := 0 }

/-- Witness for C2 at the concrete chunks Hel and lo of the
specification example, on a store holding the placeholder. -/
theorem streaming_reconciliation_witness :
    witnessMsg.content = concatDeltas ["Hel", "lo"]
    ∧ witnessMsg.isPartial = some false
    ∧ witnessMsg.tokensUsed = some (((none : Option StreamUsage).map
        StreamUsage.completion_tokens).getD
        (estimateTokens (concatDeltas ["Hel", "lo"]))) :=
  streaming_reconciliation_spec.1
    [sampleSession "s1" [sampleMsg "a1" .assistant ""]] "s1" "a1" 5
    ["Hel", "lo"] none none witnessSession (by decide) (by decide)
    witnessMsg (by decide) (by decide)

/-- The streaming placeholder used by the concrete error example. -/
def cexPlaceholder : ChatMessage :=
  { id := "a1", role := .assistant, content := "", mode := .text,
    attachments := [], timestamp := 5, isPartial := some true }

/-- Counterexample to C3 as stated: a non-abort failure after the chunk
Hel leaves the message with the partial content and no error flag, but
the partial flag is still true, not cleared to false. -/
theorem partial_error_counterexample :
    (runTextStream [sampleSession "s1" [cexPlaceholder]] "s1" "a1" 5
        ["Hel"] (.failed "boom")).map
      (fun s => s.messages.map (fun m => (m.content, m.isPartial, m.isError)))
      = [[("Hel", some true, (none : Option Bool))]] := by decide

/-- C3 amended: on a non-abort error with partial content accumulated,
the error path applies no update at all, so the partial content and
heuristic token count are preserved and the error flag stays unset, but
the partial flag remains true rather than being cleared. -/
theorem partial_error_finalization :
    ∀ (ss : List ChatSession) (sid aid : String) (now : Nat)
      (deltas : List String) (friendly : String),
      concatDeltas deltas ≠ "" →
      runTextStream ss sid aid now deltas (.failed friendly)
        = (reconcileChunks ss sid aid now "" deltas).2
      ∧ (∀ s ∈ runTextStream ss sid aid now deltas (.failed friendly),
          s.id = sid → ∀ m ∈ s.messages, m.id = aid →
            m.content = concatDeltas deltas ∧ m.isPartial = some true)
      ∧ ((∀ s ∈ ss, s.id = sid → ∀ m ∈ s.messages, m.id = aid →
            m.isError = none) →
          ∀ s ∈ runTextStream ss sid aid now deltas (.failed friendly),
            s.id = sid → ∀ m ∈ s.messages, m.id = aid → m.isError = none) := by
  intro ss sid aid now deltas friendly hacc
  have hfst := reconcileChunks_fst sid aid now deltas ss ""
  rw [String.empty_append] at hfst
  have hne : deltas ≠ [] := by
    intro h
    subst h
    exact hacc rfl
  have hrun : runTextStream ss sid aid now deltas (.failed friendly)
      = (reconcileChunks ss sid aid now "" deltas).2 := by
    simp only [runTextStream, finishText, hfst]
    rw [if_neg hacc]
  refine ⟨hrun, ?_, ?_⟩
  · intro s hs hsid m hm hmid
    rw [hrun] at hs
    have h := reconcileChunks_writes sid aid now deltas ss "" hne s hs hsid m hm hmid
    rw [String.empty_append] at h
    exact ⟨h.1, h.2.2⟩
  · intro h0 s hs hsid m hm hmid
    rw [hrun] at hs
    exact reconcileChunks_isError sid aid now deltas ss "" h0 s hs hsid m hm hmid

/-- Witness for the amended C3 on the concrete one-chunk error run. -/
theorem partial_error_finalization_witness :
    runTextStream [sampleSession "s1" [cexPlaceholder]] "s1" "a1" 5
        ["Hel"] (.failed "boom")
      = (reconcileChunks [sampleSession "s1" [cexPlaceholder]] "s1" "a1" 5
          "" ["Hel"]).2 :=
  (partial_error_finalization [sampleSession "s1" [cexPlaceholder]]
    "s1" "a1" 5 ["Hel"] "boom" (by decide)).1

/-- C5: handleRegenerate is a no-op when the assistant message is not
found in the active session, is the first entry, or is not immediately
preceded by a user message; otherwise, outside an active generation, it
truncates the store from the assistant message onward and re-issues the
send with the preceding user message's content, mode and attachments. -/
theorem handleRegenerate_spec :
    (∀ (st : OrchState) (now : Nat) (amid sid : String) (sess : ChatSession),
        st.activeSessionId = some sid → activeSessionOf st = some sess →
        jsFindIndex (fun m => m.id = amid) sess.messages = none →
        handleRegenerate st now amid = (st, none))
    ∧ (∀ (st : OrchState) (now : Nat) (amid sid : String) (sess : ChatSession),
        st.activeSessionId = some sid → activeSessionOf st = some sess →
        jsFindIndex (fun m => m.id = amid) sess.messages = some 0 →
        handleRegenerate st now amid = (st, none))
    ∧ (∀ (st : OrchState) (now : Nat) (amid sid : String) (sess : ChatSession)
        (i : Nat) (prev : ChatMessage),
        st.activeSessionId = some sid → activeSessionOf st = some sess →
        jsFindIndex (fun m => m.id = amid) sess.messages = some i → i ≠ 0 →
        sess.messages[i - 1]? = some prev → prev.role ≠ .user →
        handleRegenerate st now amid = (st, none))
    ∧ (∀ (st : OrchState) (now : Nat) (amid sid : String) (sess : ChatSession)
        (i : Nat) (prev : ChatMessage),
        st.activeSessionId = some sid → activeSessionOf st = some sess →
        st.isStreaming = false →
        jsFindIndex (fun m => m.id = amid) sess.messages = some i → i ≠ 0 →
        sess.messages[i - 1]? = some prev → prev.role = .user →
        handleRegenerate st now amid
          = ({ st with sessions := deleteMessagesFrom st.sessions sid amid now },
             some ⟨prev.content, prev.mode, prev.attachments⟩)) := by
  refine ⟨?_, ?_, ?_, ?_⟩
  · intro st now amid sid sess h1 h2 hf
    simp [handleRegenerate, h1, h2, hf]
  · intro st now amid sid sess h1 h2 hf
    simp [handleRegenerate, h1, h2, hf]
  · intro st now amid sid sess i prev h1 h2 hf hi hprev hrole
    simp [handleRegenerate, h1, h2, hf, hi, hprev, hrole]
  · intro st now amid sid sess i prev h1 h2 hs hf hi hprev hrole
    simp [handleRegenerate, h1, h2, hs, hf, hi, hprev, hrole]

/-- The quiescent two-message state of the regenerate example. -/
def regenState : OrchState :=
  { selectedModel := some { name := "m", modelType := .text, pricing := {} },
    settings := { autoReadBalance := false, systemPrompt := "" },
    balance := none, isStreaming := false, activeSessionId := some "s1",
    sessions := [sampleSession "s1"
      [sampleMsg "u1" .user "hi", sampleMsg "a1" .assistant "hello"]] }

/-- Witness for C5 at the concrete log user hi, assistant hello:
regenerating the assistant message truncates to the user message alone
and re-sends hi with its mode and attachments. -/
theorem handleRegenerate_spec_witness :
    handleRegenerate regenState 9 "a1"
      = ({ regenState with
            sessions := deleteMessagesFrom regenState.sessions "s1" "a1" 9 },
         some ⟨"hi", .text, []⟩)
    ∧ (deleteMessagesFrom regenState.sessions "s1" "a1" 9).map
        (fun s => s.messages) = [[sampleMsg "u1" .user "hi"]] := by
  constructor
  · exact handleRegenerate_spec.2.2.2 regenState 9 "a1" "s1"
      (sampleSession "s1"
        [sampleMsg "u1" .user "hi", sampleMsg "a1" .assistant "hello"])
      1 (sampleMsg "u1" .user "hi") (by decide) (by decide) (by decide)
      (by decide) (by decide) (by decide) (by decide)
  · decide

/-- An orchestrator state with a generation already in flight for the
active session. -/
def inflightState : OrchState :=
  { selectedModel := some { name := "m", modelType := .text, pricing := {} },
    settings := { autoReadBalance := false, systemPrompt := "" },
    balance := none, isStreaming := true, activeSessionId := some "s1",
    sessions := [sampleSession "s1" []] }

/-- Counterexample to C4 as stated: handleSend has no in-flight guard,
so a send issued while isStreaming is true still appends a user message
and an assistant placeholder instead of being a no-op. -/
theorem send_inflight_counterexample :
    inflightState.isStreaming = true
    ∧ inflightState.sessions.map (fun s => s.messages.length) = [0]
    ∧ (handleSend inflightState
        { deltas := [], term := .completed none none, media := .err "x" }
        { newSessionId := "n", userMsgId := "u1", assistantMsgId := "a1",
          attachmentId := "t1" } 7 "hi" .text []).sessions.map
        (fun s => s.messages.map (fun m => m.role)) = [[.user, .assistant]] := by
  decide

/-- C4 amended: the at-most-one-generation discipline is not enforced in
handleSend itself; while a generation is in flight, regenerate and
edit-and-resend are no-ops and the composer's Enter handler issues no
send, which is where the guard actually lives. -/
theorem inflight_guard_amended :
    (∀ (st : OrchState) (now : Nat) (amid : String), st.isStreaming = true →
        handleRegenerate st now amid = (st, none))
    ∧ (∀ (st : OrchState) (now : Nat) (umid newContent : String),
        st.isStreaming = true →
        handleEditAndRegenerate st now umid newContent = (st, none))
    ∧ (∀ (d : Bool) (text : String) (atts : List MessageAttachment)
        (over : Bool) (em : GenerationMode),
        composerEnterKey d true text atts over em = none) := by
  refine ⟨?_, ?_, ?_⟩
  · intro st now amid hs
    rcases hA : st.activeSessionId with _ | sid <;>
      rcases hB : activeSessionOf st with _ | sess <;>
      simp [handleRegenerate, hA, hB, hs]
  · intro st now umid newContent hs
    rcases hA : st.activeSessionId with _ | sid <;>
      rcases hB : activeSessionOf st with _ | sess <;>
      simp [handleEditAndRegenerate, hA, hB, hs]
  · intro d text atts over em
    simp [composerEnterKey]

/-- Witness for the amended C4 at concrete in-flight inputs. -/
theorem inflight_guard_amended_witness :
    handleRegenerate inflightState 9 "a1" = (inflightState, none)
    ∧ handleEditAndRegenerate inflightState 9 "u1" "new" = (inflightState, none)
    ∧ composerEnterKey false true "hi" [] false .text = none :=
  ⟨inflight_guard_amended.1 inflightState 9 "a1" (by decide),
   inflight_guard_amended.2.1 inflightState 9 "u1" "new" (by decide),
   inflight_guard_amended.2.2 false "hi" [] false .text⟩

/-- Shape of the line loop: the emitted events are some chunk events
followed by exactly one onDone event carrying the last observed usage
and tier. -/
theorem runLines_shape (pf : String → Option StreamDelta) :
    ∀ (lines : List String) (u : Option StreamUsage) (t : Option String),
      ∃ evs, runLines pf lines u t
          = evs ++ [.done (observeUT pf lines u t).1 (observeUT pf lines u t).2]
        ∧ ∀ e ∈ evs, e.isDone = false := by
  intro lines
  induction lines with
  | nil =>
    intro u t
    exact ⟨[], rfl, by simp⟩
  | cons line rest ih =>
    intro u t
    simp only [runLines, observeUT]
    split_ifs with h1 h2 h3
    · exact ih u t
    · exact ⟨[], rfl, by simp⟩
    · cases hpf : pf (jsDrop (jsTrim line) 6) with
      | none => exact ih u t
      | some j =>
        dsimp only
        cases hdc : j.deltaContent with
        | none => exact ih (frameUsage u j) (frameTier t j)
        | some d =>
          dsimp only
          rcases ih (frameUsage u j) (frameTier t j) with ⟨evs, he, hnd⟩
          split_ifs with hd
          · refine ⟨.chunk d :: evs, ?_, ?_⟩
            · rw [List.cons_append, he]
            · intro e he2
              rcases List.mem_cons.mp he2 with rfl | hmem
              · rfl
              · exact hnd e hmem
          · exact ⟨evs, he, hnd⟩
    · exact ih u t

/-- A data-prefixed line whose payload fails to parse contributes
nothing: the event trace with the line equals the trace without it. -/
theorem runLines_skip_malformed (pf : String → Option StreamDelta)
    (bad : String)
    (hb1 : jsStartsWith (jsTrim bad) "data: " = true)
    (hb2 : jsTrim bad ≠ "data: [DONE]")
    (hb3 : pf (jsDrop (jsTrim bad) 6) = none) :
    ∀ (pre post : List String) (u : Option StreamUsage) (t : Option String),
      runLines pf (pre ++ bad :: post) u t = runLines pf (pre ++ post) u t := by
  have hE : jsTrim bad ≠ "" := by
    intro h
    rw [h] at hb1
    exact absurd hb1 (by decide)
  have hC : jsTrim bad ≠ ":" := by
    intro h
    rw [h] at hb1
    exact absurd hb1 (by decide)
  intro pre
  induction pre with
  | nil =>
    intro post u t
    simp only [List.nil_append]
    conv_lhs => rw [runLines]
    simp [hE, hC, hb2, hb1, hb3]
  | cons x pre ih =>
    intro post u t
    simp only [List.cons_append]
    conv_lhs => rw [runLines]
    conv_rhs => rw [runLines]
    split_ifs with h1 h2 h3
    · exact ih post u t
    · rfl
    · cases hpf : pf (jsDrop (jsTrim x) 6) with
      | none => exact ih post u t
      | some j =>
        dsimp only
        cases hdc : j.deltaContent with
        | none => exact ih post _ _
        | some d =>
          dsimp only
          split_ifs with hd
          · rw [ih post _ _]
          · exact ih post _ _
    · exact ih post u t

/-- C1: on every readable body, streamGeneration emits chunk events
followed by exactly one onDone event, which carries the last usage and
tier observed in the frames; and a malformed data-prefixed line is
skipped silently, leaving the whole event trace unchanged. -/
theorem streamGeneration_onDone_spec :
    (∀ (pf : String → Option StreamDelta) (chunks : List String),
        ∃ evs, streamRun pf chunks
            = evs ++ [.done (observeUT pf (linesOf chunks) none none).1
                (observeUT pf (linesOf chunks) none none).2]
          ∧ ∀ e ∈ evs, e.isDone = false)
    ∧ (∀ (pf : String → Option StreamDelta) (bad : String),
        jsStartsWith (jsTrim bad) "data: " = true →
        jsTrim bad ≠ "data: [DONE]" →
        pf (jsDrop (jsTrim bad) 6) = none →
        ∀ (pre post : List String) (u : Option StreamUsage) (t : Option String),
          runLines pf (pre ++ bad :: post) u t = runLines pf (pre ++ post) u t) :=
  ⟨fun pf chunks => runLines_shape pf (linesOf chunks) none none,
   fun pf bad hb1 hb2 hb3 => runLines_skip_malformed pf bad hb1 hb2 hb3⟩

/-- Witness for C1 at a concrete malformed line under a parser that
rejects every payload. -/
theorem streamGeneration_onDone_witness :
    runLines (fun _ => none) ([] ++ "data: junk" :: []) none none
      = runLines (fun _ => none) ([] ++ []) none none :=
  streamGeneration_onDone_spec.2 (fun _ => none) "data: junk"
    (by decide) (by decide) rfl [] [] none none

/-- Validation succeeds on every encoded session list whose ids are
nonempty. -/
theorem validateSessionsJ_encoded :
    ∀ (sessions : List ChatSession), (∀ s ∈ sessions, s.id ≠ "") →
      validateSessionsJ (sessions.map sessionToJson) = .ok () := by
  intro sessions
  induction sessions with
  | nil => intro _; rfl
  | cons s rest ih =>
    intro h
    have hA : jsonFieldTruthy (sessionToJson s) "id" = true := by
      have he : jsonFieldTruthy (sessionToJson s) "id" = decide (s.id ≠ "") := rfl
      rw [he, decide_eq_true_eq]
      exact h s (List.mem_cons_self s rest)
    have hB : jsonFieldTruthy (sessionToJson s) "messages" = true := rfl
    have hC : jsonFieldIsArray (sessionToJson s) "messages" = true := rfl
    simp only [List.map_cons, validateSessionsJ, hA, hB, hC, Bool.not_true,
      Bool.or_self, Bool.or_false, Bool.false_or, if_false]
    exact ih (fun a ha => h a (List.mem_cons_of_mem _ ha))

/-- Validation reports an error whenever some session object lacks a
truthy id or an array-typed message log. -/
theorem validateSessionsJ_error :
    ∀ (ss : List Json) (s : Json), s ∈ ss →
      (jsonFieldTruthy s "id" = false ∨ jsonFieldIsArray s "messages" = false) →
      ∃ m, validateSessionsJ ss = .error m := by
  intro ss
  induction ss with
  | nil => intro s hs; simp at hs
  | cons x rest ih =>
    intro s hs hbad
    by_cases hcond : (! jsonFieldTruthy x "id" || ! jsonFieldTruthy x "messages"
        || ! jsonFieldIsArray x "messages") = true
    · exact ⟨"Invalid session: missing id or messages",
        by simp only [validateSessionsJ, hcond, if_true]⟩
    · rcases List.mem_cons.mp hs with rfl | hmem
      · exfalso
        apply hcond
        rcases hbad with hb | hb <;> simp [hb]
      · rcases ih s hmem hbad with ⟨m, hm⟩
        refine ⟨m, ?_⟩
        simp only [validateSessionsJ, hcond, if_false]
        exact hm

/-- C9: import of an export succeeds and returns the session objects;
the encoded objects carry the original id, title and message contents in
order; import also accepts a bare array; a wrapper whose sessions field
is not an array is rejected; and an array holding a session object
without a truthy id or without an array-typed message log is rejected. -/
theorem export_import_round_trip :
    (∀ (sessions : List ChatSession) (exportedAt : String),
        (∀ s ∈ sessions, s.id ≠ "") →
        importJSONv (exportJSONv sessions exportedAt)
          = .ok (sessions.map sessionToJson))
    ∧ (∀ (s : ChatSession),
        jsonGet (sessionToJson s) "id" = some (.str s.id)
        ∧ jsonGet (sessionToJson s) "title" = some (.str s.title)
        ∧ jsonMessagesContents (sessionToJson s)
            = some (s.messages.map (fun m => some (.str m.content))))
    ∧ (∀ (sessions : List ChatSession),
        (∀ s ∈ sessions, s.id ≠ "") →
        importJSONv (.arr (sessions.map sessionToJson))
          = .ok (sessions.map sessionToJson))
    ∧ (∀ (v e j : Json), (∀ xs, j ≠ .arr xs) →
        importJSONv (Json.obj [("version", v), ("exportedAt", e), ("sessions", j)])
          = .error "Invalid export: sessions must be an array")
    ∧ (∀ (ss : List Json) (s : Json), s ∈ ss →
        (jsonFieldTruthy s "id" = false ∨ jsonFieldIsArray s "messages" = false) →
        ∃ msg, importJSONv (Json.arr ss) = .error msg) := by
  refine ⟨?_, ?_, ?_, ?_, ?_⟩
  · intro sessions exportedAt h
    have hval := validateSessionsJ_encoded sessions h
    show (match validateSessionsJ (sessions.map sessionToJson) with
          | .ok _ => Except.ok (sessions.map sessionToJson)
          | .error e => Except.error e)
        = Except.ok (sessions.map sessionToJson)
    rw [hval]
  · intro s
    refine ⟨rfl, rfl, ?_⟩
    show some ((s.messages.map messageToJson).map (fun mj => jsonGet mj "content"))
        = some (s.messages.map (fun m => some (.str m.content)))
    rw [List.map_map]
    rfl
  · intro sessions h
    have hval := validateSessionsJ_encoded sessions h
    show (match validateSessionsJ (sessions.map sessionToJson) with
          | .ok _ => Except.ok (sessions.map sessionToJson)
          | .error e => Except.error e)
        = Except.ok (sessions.map sessionToJson)
    rw [hval]
  · intro v e j hj
    cases j with
    | arr xs => exact absurd rfl (hj xs)
    | null => rfl
    | bool b => rfl
    | num q => rfl
    | str s2 => rfl
    | obj kvs => rfl
  · intro ss s hs hbad
    have hbad2 : jsonFieldTruthy s "id" = false ∨ jsonFieldIsArray s "messages" = false := hbad
    rcases validateSessionsJ_error ss s hs hbad2 with ⟨m, hm⟩
    refine ⟨m, ?_⟩
    show (match validateSessionsJ ss with
          | .ok _ => Except.ok ss
          | .error e => Except.error e) = Except.error m
    rw [hm]

/-- Witness for C9 at a concrete one-session export, a concrete
non-array sessions field, and a concrete invalid session object. -/
theorem export_import_round_trip_witness :
    importJSONv (exportJSONv [sampleSession "s1" [sampleMsg "u1" .user "hi"]]
        "2026-01-01")
      = .ok [sessionToJson (sampleSession "s1" [sampleMsg "u1" .user "hi"])]
    ∧ importJSONv (Json.obj [("version", Json.str "1.0"),
        ("exportedAt", Json.str "t"), ("sessions", Json.num 3)])
      = .error "Invalid export: sessions must be an array"
    ∧ (∃ msg, importJSONv (Json.arr [Json.num 1]) = .error msg) :=
  ⟨export_import_round_trip.1 [sampleSession "s1" [sampleMsg "u1" .user "hi"]]
      "2026-01-01" (by decide),
   export_import_round_trip.2.2.2.1 (Json.str "1.0") (Json.str "t") (Json.num 3)
      (fun xs h => Json.noConfusion h),
   export_import_round_trip.2.2.2.2 [Json.num 1] (Json.num 1)
      (List.mem_singleton.mpr rfl) (Or.inl rfl)⟩

end PollChat
